import Mathlib

/-!
Shallow embedding of `transport.go` from the go-libp2p-raft stream-transport
adapter: the hclog-to-ipfs-log bridge (`hcLogToLogger`), the
`streamLayer` dial path, the `addrProvider` resolver, and the
`NewLibp2pTransport` composition root, together with theorems settling the
specification's claims about them.

Modelling conventions:
- Go interface values that flow through the logging bridge are modelled
  by `GoVal`: a string, a slice of values, or some other value carrying only
  its `fmt` rendering.
- Go slice indexing that can go out of range is modelled with `Option`:
  a `none` result of `formatArgs`/`format` stands for a runtime panic
  (index out of range).
- External collaborators (`peer.Decode`, `gostream.Listen`) are parameters:
  a decode function `String → Option PeerId` and a listen outcome
  `Except String Listener`.
-/

set_option autoImplicit false

namespace Libp2pRaft

/-- A Go interface value as it flows through the logging bridge:
a string, a slice of interface values, or any other value identified by its
`fmt` `%s` rendering. -/
inductive GoVal where
  | vstr (s : String)
  | vslice (l : List GoVal)
  | vother (rendering : String)

mutual

/-- Go `fmt` `%s` rendering of a `GoVal` (a slice prints as the
bracketed, space-separated rendering of its elements). -/
def goFmt : GoVal → String
  | GoVal.vstr s => s
  | GoVal.vother r => r
  | GoVal.vslice l => "[" ++ goFmtList l ++ "]"

/-- Space-separated `fmt` rendering of the elements of a slice. -/
def goFmtList : List GoVal → String
  | [] => ""
  | [x] => goFmt x
  | x :: xs => goFmt x ++ " " ++ goFmtList xs

end

/-- The `hcLogToLogger` struct of `transport.go`: contextual key/value
arguments accumulated by `With`, and a display name. -/
structure hcLogToLogger where
  extraArgs : List GoVal
  name : String

/-- The loop body of `formatArgs`: walk the argument list at even indices
`i`; when `args[i]` is a string key, read `args[i+1]` as the value (a read
past the end is an out-of-range panic, modelled as `none`) and emit the
`" key=value."` fragment; otherwise skip the pair. -/
def renderPairs : List GoVal → Option String
  | [] => some ""
  | [GoVal.vstr _] => none
  | [_] => some ""
  | GoVal.vstr key :: val :: rest =>
      Option.map (fun s => " " ++ key ++ "=" ++ goFmt val ++ "." ++ s) (renderPairs rest)
  | _ :: _ :: rest => renderPairs rest

/-- `(*hcLogToLogger).formatArgs`: the receiver's `extraArgs` slice is
appended to `args` as a single element (Go `append(args, log.extraArgs)`,
no `...` spread), then alternating pairs are rendered. -/
def hcLogToLogger.formatArgs (lg : hcLogToLogger) (args : List GoVal) : Option String :=
  renderPairs (args ++ [GoVal.vslice lg.extraArgs])

/-- `(*hcLogToLogger).format`: prefix the name with `": "` when non-empty,
and append `". Args: "` plus the rendered arguments when they rendered to
something non-empty. -/
def hcLogToLogger.format (lg : hcLogToLogger) (msg : String) (args : List GoVal) :
    Option String :=
  Option.map
    (fun argstr =>
      let argstr2 := if argstr.length > 0 then ". Args: " ++ argstr else argstr
      let name2 := if lg.name.length > 0 then lg.name ++ ": " else lg.name
      name2 ++ msg ++ argstr2)
    (hcLogToLogger.formatArgs lg args)

/-- The four host-logger (`go-log`) levels reachable from the bridge. -/
inductive HostLevel where
  | debug
  | info
  | warn
  | error
  deriving DecidableEq, Repr

/-- `hclog.NoLevel` -/
def hclogNoLevel : Int := 0
/-- `hclog.Trace` -/
def hclogTrace : Int := 1
/-- `hclog.Debug` -/
def hclogDebug : Int := 2
/-- `hclog.Info` -/
def hclogInfo : Int := 3
/-- `hclog.Warn` -/
def hclogWarn : Int := 4
/-- `hclog.Error` -/
def hclogError : Int := 5

/-- `(*hcLogToLogger).Trace`: emits at host debug level. -/
def hcLogToLogger.Trace (lg : hcLogToLogger) (msg : String) (args : List GoVal) :
    HostLevel × Option String :=
  (HostLevel.debug, hcLogToLogger.format lg msg args)

/-- `(*hcLogToLogger).Debug`: emits at host debug level. -/
def hcLogToLogger.Debug (lg : hcLogToLogger) (msg : String) (args : List GoVal) :
    HostLevel × Option String :=
  (HostLevel.debug, hcLogToLogger.format lg msg args)

/-- `(*hcLogToLogger).Info`: emits at host info level. -/
def hcLogToLogger.Info (lg : hcLogToLogger) (msg : String) (args : List GoVal) :
    HostLevel × Option String :=
  (HostLevel.info, hcLogToLogger.format lg msg args)

/-- `(*hcLogToLogger).Warn`: emits at host warn level. -/
def hcLogToLogger.Warn (lg : hcLogToLogger) (msg : String) (args : List GoVal) :
    HostLevel × Option String :=
  (HostLevel.warn, hcLogToLogger.format lg msg args)

/-- `(*hcLogToLogger).Error`: emits at host error level. -/
def hcLogToLogger.Error (lg : hcLogToLogger) (msg : String) (args : List GoVal) :
    HostLevel × Option String :=
  (HostLevel.error, hcLogToLogger.format lg msg args)

/-- `(*hcLogToLogger).Log`: the `switch` on the hclog level.  Each branch
calls the per-level method passing the whole variadic `args` slice as one
element (Go `log.Debug(msg, args)`, no `...` spread), so the per-level
method receives the one-element list `[GoVal.vslice args]`. -/
def hcLogToLogger.Log (lg : hcLogToLogger) (level : Int) (msg : String)
    (args : List GoVal) : HostLevel × Option String :=
  if level = hclogTrace ∨ level = hclogDebug then
    hcLogToLogger.Debug lg msg [GoVal.vslice args]
  else if level = hclogNoLevel ∨ level = hclogInfo then
    hcLogToLogger.Info lg msg [GoVal.vslice args]
  else if level = hclogWarn then
    hcLogToLogger.Warn lg msg [GoVal.vslice args]
  else if level = hclogError then
    hcLogToLogger.Error lg msg [GoVal.vslice args]
  else
    hcLogToLogger.Warn lg msg [GoVal.vslice args]

/-- `(*hcLogToLogger).With`: a fresh bridge whose `extraArgs` are the call's
arguments; the `name` field is left at its zero value. -/
def hcLogToLogger.With (lg : hcLogToLogger) (args : List GoVal) : hcLogToLogger :=
  { extraArgs := args, name := "" }

/-- `(*hcLogToLogger).Named`: a fresh bridge named by concatenating the
receiver's name, `": "`, and the suffix; the `extraArgs` field is left at
its zero value. -/
def hcLogToLogger.Named (lg : hcLogToLogger) (n : String) : hcLogToLogger :=
  { extraArgs := [], name := lg.name ++ ": " ++ n }

/-- `(*hcLogToLogger).ResetNamed`: a fresh bridge with exactly the given
name; the `extraArgs` field is left at its zero value. -/
def hcLogToLogger.ResetNamed (lg : hcLogToLogger) (n : String) : hcLogToLogger :=
  { extraArgs := [], name := n }

/-- Modelled from the spec (§4.3): the level mapping the specification
prescribes for `Log` — trace and debug to debug; unset and info to info;
warn to warn; error to error; anything unrecognized to warn. -/
def specLevelMap (level : Int) : HostLevel :=
  if level = hclogTrace ∨ level = hclogDebug then HostLevel.debug
  else if level = hclogNoLevel ∨ level = hclogInfo then HostLevel.info
  else if level = hclogWarn then HostLevel.warn
  else if level = hclogError then HostLevel.error
  else HostLevel.warn

/-- Stand-in for a libp2p `host.Host` handle (opaque to this adapter). -/
structure Host where
  hid : Nat
  deriving DecidableEq, Repr

/-- Stand-in for a libp2p peer identity (opaque to this adapter). -/
structure PeerId where
  pid : Nat
  deriving DecidableEq, Repr

/-- Stand-in for the `gostream` listener held by the stream layer. -/
structure Listener where
  lid : Nat
  deriving DecidableEq, Repr

/-- The `streamLayer` struct: the (possibly nil) host handle and the
listener. -/
structure streamLayer where
  host : Option Host
  l : Listener
  deriving DecidableEq, Repr

/-- Outcome of `(*streamLayer).Dial`: the not-initialized error, the
`peer.Decode` error, or an invocation of the substrate stream-opening
operation `gostream.Dial` with the decoded peer and the timeout-bounded
context. -/
inductive DialResult where
  | errNotInit
  | errDecode
  | netDial (p : PeerId) (timeout : Nat)
  deriving DecidableEq, Repr

/-- `(*streamLayer).Dial`: fail with the not-initialized error when the
host handle is nil; otherwise decode the address (`peer.Decode`, modelled
by the `decode` parameter) and on failure return the decode error; otherwise
open a stream to the decoded peer under the timeout. -/
def streamLayer.Dial (decode : String → Option PeerId) (sl : streamLayer)
    (address : String) (timeout : Nat) : DialResult :=
  match sl.host with
  | none => DialResult.errNotInit
  | some _ =>
    match decode address with
    | none => DialResult.errDecode
    | some p => DialResult.netDial p timeout

/-- The `addrProvider` struct. -/
structure addrProvider where
  h : Option Host
  deriving DecidableEq, Repr

/-- `(*addrProvider).ServerAddr`: returns the server id unchanged as the
server address, with a nil error. -/
def addrProvider.ServerAddr (ap : addrProvider) (id : String) :
    String × Option String :=
  (id, none)

/-- The `raft.NetworkTransportConfig` value assembled by
`NewLibp2pTransport`. -/
structure NetworkTransportConfig where
  serverAddressProvider : addrProvider
  logger : hcLogToLogger
  stream : streamLayer
  maxPool : Nat
  timeout : Nat

/-- `newStreamLayer`: propagate a failure of `gostream.Listen` (modelled by
the `listenResult` parameter); otherwise wrap the host and the listener. -/
def newStreamLayer (listenResult : Except String Listener) (h : Option Host) :
    Except String streamLayer :=
  match listenResult with
  | Except.error e => Except.error e
  | Except.ok listener => Except.ok { host := h, l := listener }

/-- `NewLibp2pTransport`: build the address provider and the stream layer
(failing iff stream-layer creation fails), then assemble the transport
configuration with a fresh zero-valued log bridge, `MaxPool` zero and the
caller's timeout. -/
def NewLibp2pTransport (listenResult : Except String Listener) (h : Option Host)
    (timeout : Nat) : Except String NetworkTransportConfig :=
  match newStreamLayer listenResult h with
  | Except.error e => Except.error e
  | Except.ok stream =>
      Except.ok
        { serverAddressProvider := { h := h }
          logger := { extraArgs := [], name := "" }
          stream := stream
          maxPool := 0
          timeout := timeout }

/-- A rendered-pairs walk over a list whose last element is a slice never
reads past the end: the final element is not a string, so it is either
skipped (key position) or consumed as a value, never matched as a dangling
string key. -/
theorem renderPairs_snoc_vslice_isSome :
    ∀ (xs l : List GoVal), (renderPairs (xs ++ [GoVal.vslice l])).isSome = true
  | [], _ => rfl
  | [GoVal.vstr _], _ => rfl
  | [GoVal.vslice _], _ => rfl
  | [GoVal.vother _], _ => rfl
  | GoVal.vstr _ :: y :: rest, l => by
      have ih := renderPairs_snoc_vslice_isSome rest l
      obtain ⟨s, hs⟩ := Option.isSome_iff_exists.mp ih
      simp [renderPairs, List.cons_append, hs]
  | GoVal.vslice _ :: y :: rest, l => by
      have ih := renderPairs_snoc_vslice_isSome rest l
      simpa [renderPairs, List.cons_append] using ih
  | GoVal.vother _ :: y :: rest, l => by
      have ih := renderPairs_snoc_vslice_isSome rest l
      simpa [renderPairs, List.cons_append] using ih

/-- When the argument list is the single slice element produced by `Log`,
`format` emits just the name prefix and the message: the slice fails the
string type assertion in key position and the appended `extraArgs` slice is
never reached as a key either, so the rendered argument string is empty. -/
theorem format_single_vslice (lg : hcLogToLogger) (msg : String) (args : List GoVal) :
    hcLogToLogger.format lg msg [GoVal.vslice args] =
      some ((if lg.name.length > 0 then lg.name ++ ": " else lg.name) ++ msg) := by
  have h : hcLogToLogger.format lg msg [GoVal.vslice args] =
      some ((if lg.name.length > 0 then lg.name ++ ": " else lg.name) ++ msg ++ "") := rfl
  rw [h, String.append_empty]

/-- Every branch of the `Log` switch passes the call-site slice as a single
element and emits the same formatted message; the branches differ only in
the host level. -/
theorem Log_snd (lg : hcLogToLogger) (level : Int) (msg : String) (args : List GoVal) :
    (hcLogToLogger.Log lg level msg args).2 =
      hcLogToLogger.format lg msg [GoVal.vslice args] := by
  unfold hcLogToLogger.Log hcLogToLogger.Debug hcLogToLogger.Info
    hcLogToLogger.Warn hcLogToLogger.Error
  split_ifs <;> rfl

/-- C1: evaluation of `formatArgs` at the failing input for the claim that
contextual pairs accumulated via `With` are rendered after the call-site
pairs.  On a bridge carrying the contextual pair `k`/`v`, an empty call-site
list renders nothing at all (the claim requires the fragment " k=v."), and a
call-site pair `a`/`b` renders only its own fragment: `extraArgs` is
appended as one slice element, never spread, so its pairs are never
rendered. -/
theorem C1_extraArgs_never_rendered_eval :
    hcLogToLogger.formatArgs ⟨[GoVal.vstr "k", GoVal.vstr "v"], ""⟩ [] = some "" ∧
    hcLogToLogger.formatArgs ⟨[GoVal.vstr "k", GoVal.vstr "v"], ""⟩
        [GoVal.vstr "a", GoVal.vstr "b"] = some " a=b." :=
  ⟨rfl, by decide⟩

/-- C2: for every bridge, level, message and call-site argument list, the
message `Log` emits carries no rendered key/value fragment from the
call-site arguments: `Log` passes the whole argument slice as a single
element, that element is not a string, so `formatArgs` renders nothing and
the emitted text is exactly the name prefix followed by the message. -/
theorem C2_Log_renders_no_call_site_pairs :
    ∀ (lg : hcLogToLogger) (level : Int) (msg : String) (args : List GoVal),
      hcLogToLogger.formatArgs lg [GoVal.vslice args] = some "" ∧
      (hcLogToLogger.Log lg level msg args).2 =
        some ((if lg.name.length > 0 then lg.name ++ ": " else lg.name) ++ msg) := by
  intro lg level msg args
  refine ⟨rfl, ?_⟩
  rw [Log_snd, format_single_vslice]

/-- C3: `Log` dispatches every input level to exactly the host level the
specification's mapping prescribes: trace and debug to debug, unset and
info to info, warn to warn, error to error, and any unrecognized level to
warn. -/
theorem C3_Log_level_dispatch :
    ∀ (lg : hcLogToLogger) (level : Int) (msg : String) (args : List GoVal),
      (hcLogToLogger.Log lg level msg args).1 = specLevelMap level := by
  intro lg level msg args
  unfold hcLogToLogger.Log specLevelMap hcLogToLogger.Debug hcLogToLogger.Info
    hcLogToLogger.Warn hcLogToLogger.Error
  split_ifs <;> rfl

/-- C6: `Log` terminates normally for every level and argument list — the
emission it produces is always `some` message, never the out-of-range
panic — and `formatArgs` itself never reads out of range for any argument
list, including empty and odd-length lists, because the appended
`extraArgs` slice element pads the walk and is not a string key. -/
theorem C6_Log_and_formatArgs_never_out_of_range :
    ∀ (lg : hcLogToLogger) (level : Int) (msg : String) (args : List GoVal),
      ((hcLogToLogger.Log lg level msg args).2).isSome = true ∧
      (hcLogToLogger.formatArgs lg args).isSome = true := by
  intro lg level msg args
  constructor
  · rw [Log_snd, format_single_vslice]
    rfl
  · exact renderPairs_snoc_vslice_isSome args lg.extraArgs

/-- C4: on a stream layer whose host handle is valid (non-nil), `Dial` with
an address that does not decode to a peer identity returns the decode
error and never reaches the substrate stream-opening operation. -/
theorem C4_Dial_invalid_address_no_net :
    ∀ (decode : String → Option PeerId) (sl : streamLayer) (h : Host)
      (address : String) (timeout : Nat),
      sl.host = some h → decode address = none →
      streamLayer.Dial decode sl address timeout = DialResult.errDecode ∧
      ∀ (p : PeerId) (t : Nat),
        streamLayer.Dial decode sl address timeout ≠ DialResult.netDial p t := by
  intro decode sl h address timeout hh hd
  have he : streamLayer.Dial decode sl address timeout = DialResult.errDecode := by
    unfold streamLayer.Dial
    rw [hh, hd]
  refine ⟨he, ?_⟩
  intro p t hc
  rw [he] at hc
  exact DialResult.noConfusion hc

/-- C4 witness: a concrete valid host, an address the decoder rejects. -/
theorem C4_Dial_invalid_address_no_net_witness :
    streamLayer.Dial (fun _ => none) ⟨some ⟨0⟩, ⟨0⟩⟩ "not-a-peer-id" 5 =
      DialResult.errDecode :=
  (C4_Dial_invalid_address_no_net (fun _ => none) ⟨some ⟨0⟩, ⟨0⟩⟩ ⟨0⟩
    "not-a-peer-id" 5 rfl rfl).1

/-- C5: when the host handle is nil, `Dial` returns the not-initialized
error for every address and timeout, independently of the decoder — the
nil check precedes decoding — and when the host handle is valid, a failing
decode yields the decode error, not the not-initialized error. -/
theorem C5_Dial_nil_host_before_decode :
    ∀ (sl : streamLayer) (address : String) (timeout : Nat),
      (sl.host = none →
        ∀ decode : String → Option PeerId,
          streamLayer.Dial decode sl address timeout = DialResult.errNotInit) ∧
      (∀ (decode : String → Option PeerId) (h : Host),
        sl.host = some h → decode address = none →
        streamLayer.Dial decode sl address timeout = DialResult.errDecode) := by
  intro sl address timeout
  constructor
  · intro hn decode
    unfold streamLayer.Dial
    rw [hn]
  · intro decode h hh hd
    unfold streamLayer.Dial
    rw [hh, hd]

/-- C5 witness: a nil-host layer fails not-initialized even though the
decoder would accept the address; a valid-host layer with a rejecting
decoder fails with the decode error. -/
theorem C5_Dial_nil_host_before_decode_witness :
    streamLayer.Dial (fun _ => some ⟨1⟩) ⟨none, ⟨0⟩⟩ "valid-or-not" 3 =
      DialResult.errNotInit ∧
    streamLayer.Dial (fun _ => none) ⟨some ⟨2⟩, ⟨0⟩⟩ "bad" 3 =
      DialResult.errDecode :=
  ⟨(C5_Dial_nil_host_before_decode ⟨none, ⟨0⟩⟩ "valid-or-not" 3).1 rfl
      (fun _ => some ⟨1⟩),
   (C5_Dial_nil_host_before_decode ⟨some ⟨2⟩, ⟨0⟩⟩ "bad" 3).2
      (fun _ => none) ⟨2⟩ rfl rfl⟩

/-- C7: `ServerAddr` returns its argument unchanged with a nil error (pure,
always-succeeding identity passthrough), so for any external
encode/decode pair satisfying the peer-identity round-trip invariant,
decoding the address resolved from an encoded identity recovers exactly
that identity. -/
theorem C7_ServerAddr_identity_roundtrip :
    ∀ (ap : addrProvider) (id : String),
      addrProvider.ServerAddr ap id = (id, none) ∧
      (∀ (decode : String → Option PeerId) (encode : PeerId → String)
          (p : PeerId),
        decode (encode p) = some p →
        decode (addrProvider.ServerAddr ap (encode p)).1 = some p) := by
  intro ap id
  exact ⟨rfl, fun decode encode p hp => hp⟩

/-- C7 witness: a concrete codec on which the round-trip hypothesis holds
at a concrete identity. -/
theorem C7_ServerAddr_identity_roundtrip_witness :
    addrProvider.ServerAddr ⟨none⟩ "QmPeer" = ("QmPeer", none) ∧
    (fun s => if s = "p0" then some (⟨0⟩ : PeerId) else none)
        (addrProvider.ServerAddr ⟨none⟩ ((fun _ : PeerId => "p0") ⟨0⟩)).1 =
      some ⟨0⟩ :=
  ⟨(C7_ServerAddr_identity_roundtrip ⟨none⟩ "QmPeer").1,
   (C7_ServerAddr_identity_roundtrip ⟨none⟩ "p0").2
      (fun s => if s = "p0" then some ⟨0⟩ else none) (fun _ => "p0") ⟨0⟩
      (by decide)⟩

/-- C8: `NewLibp2pTransport` fails exactly when listener creation fails,
propagating that error; on success the configuration it hands to raft has
the address provider over the same host, a fresh zero-valued log bridge,
the stream layer wrapping the host and the new listener, pool size zero
and the caller-supplied timeout. -/
theorem C8_NewLibp2pTransport_config :
    ∀ (listenResult : Except String Listener) (h : Option Host) (timeout : Nat),
      (∀ e, listenResult = Except.error e →
        NewLibp2pTransport listenResult h timeout = Except.error e) ∧
      (∀ l, listenResult = Except.ok l →
        NewLibp2pTransport listenResult h timeout =
          Except.ok ⟨⟨h⟩, ⟨[], ""⟩, ⟨h, l⟩, 0, timeout⟩) ∧
      (∀ e, NewLibp2pTransport listenResult h timeout = Except.error e →
        listenResult = Except.error e) := by
  intro listenResult h timeout
  refine ⟨?_, ?_, ?_⟩
  · intro e he
    subst he
    rfl
  · intro l hl
    subst hl
    rfl
  · intro e he
    cases listenResult with
    | error e2 =>
        have : NewLibp2pTransport (Except.error e2) h timeout = Except.error e2 := rfl
        rw [this] at he
        cases he
        rfl
    | ok l => exact absurd he (by simp [NewLibp2pTransport, newStreamLayer])

/-- C8 witness: a failing listener propagates its error; a successful
listener yields the fully specified configuration. -/
theorem C8_NewLibp2pTransport_config_witness :
    NewLibp2pTransport (Except.error "bind failed") (some ⟨3⟩) 9 =
      Except.error "bind failed" ∧
    NewLibp2pTransport (Except.ok ⟨1⟩) (some ⟨3⟩) 9 =
      Except.ok ⟨⟨some ⟨3⟩⟩, ⟨[], ""⟩, ⟨some ⟨3⟩, ⟨1⟩⟩, 0, 9⟩ :=
  ⟨(C8_NewLibp2pTransport_config (Except.error "bind failed") (some ⟨3⟩) 9).1
      "bind failed" rfl,
   (C8_NewLibp2pTransport_config (Except.ok ⟨1⟩) (some ⟨3⟩) 9).2.1 ⟨1⟩ rfl⟩

/-- C9: `With`, `Named` and `ResetNamed` are pure constructions of fresh
bridges (the source builds a new struct literal and assigns nothing to the
receiver, which the embedding mirrors as pure functions): the bridge `With`
returns is independent of the receiver's state, as are `ResetNamed`'s
result and `Named`'s contextual arguments; two siblings derived via
`With a b` and `With c d` from one parent carry exactly their own
arguments, and deriving through the sibling instead of the parent changes
nothing — neither sibling observes the other's contextual arguments. -/
theorem C9_derivations_fresh_and_isolated :
    ∀ (lg lg2 : hcLogToLogger) (args : List GoVal) (n : String) (a b c d : GoVal),
      hcLogToLogger.With lg args = hcLogToLogger.With lg2 args ∧
      hcLogToLogger.ResetNamed lg n = hcLogToLogger.ResetNamed lg2 n ∧
      (hcLogToLogger.Named lg n).extraArgs = (hcLogToLogger.Named lg2 n).extraArgs ∧
      (hcLogToLogger.With lg [a, b]).extraArgs = [a, b] ∧
      (hcLogToLogger.With lg [c, d]).extraArgs = [c, d] ∧
      hcLogToLogger.With (hcLogToLogger.With lg [c, d]) [a, b] =
        hcLogToLogger.With lg [a, b] ∧
      hcLogToLogger.formatArgs (hcLogToLogger.With lg [a, b]) [] =
        hcLogToLogger.formatArgs (hcLogToLogger.With lg2 [a, b]) [] := by
  intro lg lg2 args n a b c d
  exact ⟨rfl, rfl, rfl, rfl, rfl, rfl, rfl⟩

/-- C10: the exact fields of each derived bridge: `With` keeps only the
call's arguments (empty name, the receiver's accumulated arguments
discarded); `Named` keeps only the receiver's name, the separator and the
suffix (no contextual arguments); `ResetNamed` keeps only the given name
(no contextual arguments). -/
theorem C10_derivation_fields :
    ∀ (lg : hcLogToLogger) (args : List GoVal) (n m : String),
      hcLogToLogger.With lg args = ⟨args, ""⟩ ∧
      hcLogToLogger.Named lg n = ⟨[], lg.name ++ ": " ++ n⟩ ∧
      hcLogToLogger.ResetNamed lg m = ⟨[], m⟩ := by
  intro lg args n m
  exact ⟨rfl, rfl, rfl⟩

end Libp2pRaft
